import Mathlib

/-!
Shallow embedding of `wagtail_ai/views.py` (the `process` view and its
helpers `_splitter_length`, `_process_backend_request`, `_replace_handler`,
`_append_handler`), together with faithful models of the Python string
operations they use (`str.splitlines`, `str.replace`, `sep.join`).

External collaborators (the tiktoken encoder, the Langchain recursive text
splitter, the AI backend's `chat` method and the prompt store
`get_prompt_by_id`) are fields of an `Env` record: the view code only calls
them through these interfaces.  Handlers are instrumented to also return the
list of `chat` calls they make (each call is the `user_messages` list passed
to the backend), so that claims about the number and content of backend
calls are expressible.
-/

deriving instance DecidableEq for Except

/-- `Prompt.Method` enum from the prompt model: whether the AI response
replaces chunks of the original text or is appended as new content. -/
inductive Prompt.Method where
  | REPLACE
  | APPEND
deriving DecidableEq, Repr

/-- Modelled from the spec: a `Prompt` is "a stored configuration
(text template + method)"; `wagtail_ai/prompts.py` is not in scope, only
the fields the view reads are modelled. -/
structure Prompt where
  prompt : String
  method : Prompt.Method
deriving DecidableEq, Repr

/-- The ways a `backend.chat` call can fail, as distinguished by the
`except` clauses of `_process_backend_request`: the two library rate-limit
errors (`anthropic.RateLimitError`, `openai.RateLimitError`) and every
other exception. -/
inductive BackendError where
  | anthropicRateLimit
  | openaiRateLimit
  | other (desc : String)
deriving DecidableEq, Repr

/-- `AIHandlerException(message)` raised `from cause`: the message sent to
the front end, plus the chained original error (`__cause__`), if any. -/
structure AIHandlerException where
  message : String
  cause : Option BackendError
deriving DecidableEq, Repr

/-- The external world the view calls into.
* `encode model text` — tiktoken: `encoding_for_model(model).encode(text)`,
  a list of token ids.
* `split_text chunkSize lengthFn text` — Langchain:
  `RecursiveCharacterTextSplitter(chunk_size=chunkSize,
  length_function=lengthFn).split_text(text)`.
* `chat userMessages` — `get_ai_backend().chat(user_messages=...)`:
  either the response message or a raised library error.
* `get_prompt_by_id` — the prompt store lookup from
  `wagtail_ai.prompts` (modelled from the spec: a named prompt
  configuration lookup, `None` when the id resolves to no prompt). -/
structure Env where
  encode : String → String → List Nat
  split_text : Nat → (String → Nat) → String → List String
  chat : List String → Except BackendError String
  get_prompt_by_id : Int → Option Prompt

def DEFAULT_MODEL : String := "gpt-3.5-turbo"

def DEFAULT_MAX_TOKENS : Nat := 4096

/-- `_splitter_length`: the number of tokens in a string, used by the
Langchain splitter so splitting is based on tokens rather than characters. -/
def splitter_length (env : Env) (string : String) : Nat :=
  (env.encode DEFAULT_MODEL string).length

/-- The `"\r\n"` step of Python `str.splitlines`: a carriage return
immediately followed by a line feed counts as a single line boundary, so
every `"\r\n"` pair is contracted to `"\n"` before splitting at the
single-character boundaries. -/
def normCRLF : List Char → List Char
  | [] => []
  | '\r' :: '\n' :: rest => '\n' :: normCRLF rest
  | c :: rest => c :: normCRLF rest

/-- Split at the single-character line boundaries `'\n'` and `'\r'`
(`"\r\n"` pairs have already been contracted by `normCRLF`), keeping a
trailing empty line when the input ends with a boundary; `cur` is the
(reversed) current line. -/
def splitAtBreaks (cur : List Char) : List Char → List (List Char)
  | [] => [cur.reverse]
  | c :: rest =>
    if c = '\n' || c = '\r' then
      cur.reverse :: splitAtBreaks [] rest
    else
      splitAtBreaks (c :: cur) rest

/-- Python `str.splitlines` on a char list (for the boundary characters
`"\r\n"`, `"\r"`, `"\n"`): split at boundaries, with the final empty line
dropped (so `"a\n"` has one line and `""` has none). -/
def splitlinesChars (l : List Char) : List (List Char) :=
  let r := splitAtBreaks [] (normCRLF l)
  if r.getLast? = some [] then r.dropLast else r

/-- Python `str.splitlines`. -/
def pySplitlines (s : String) : List String :=
  (splitlinesChars s.data).map fun cs => String.mk cs

/-- Python `"\n".join(lines)` on char lists (`os.linesep` on the POSIX
hosts this web application targets is `"\n"`). -/
def joinNL : List (List Char) → List Char
  | [] => []
  | [l] => l
  | l :: rest => l ++ '\n' :: joinNL rest

/-- `os.linesep.join([s for s in message.splitlines() if s])`: the blank
lines of `message` removed, the rest rejoined with the line separator. -/
def removeBlankLines (message : String) : String :=
  String.mk (joinNL ((splitlinesChars message.data).filter fun s => !s.isEmpty))

/-- Python `str.replace` scan for a nonempty pattern `pat`: left to right,
non-overlapping, every occurrence replaced by `new`.  The `Nat` argument is
the number of already-matched characters still to be skipped: on a match at
`c :: rest` the whole replacement `new` is emitted and the remaining
`pat.length - 1` matched characters are dropped from `rest`. -/
def replaceGo (pat new : List Char) : Nat → List Char → List Char
  | 0, [] => []
  | 0, c :: rest =>
    if pat.isPrefixOf (c :: rest) then
      new ++ replaceGo pat new (pat.length - 1) rest
    else
      c :: replaceGo pat new 0 rest
  | _ + 1, [] => []
  | k + 1, _ :: rest => replaceGo pat new k rest

/-- Python `s.replace(old, new)`: all occurrences of `old` in `s` replaced
by `new`; an empty `old` matches before every character and at the end. -/
def pyReplace (s old new : String) : String :=
  match old.data with
  | [] => String.mk (new.data ++ s.data.foldr (fun c acc => c :: (new.data ++ acc)) [])
  | o :: old' => String.mk (replaceGo (o :: old') new.data 0 s.data)

/-- `_process_backend_request`: one `backend.chat(user_messages=[full_prompt])`
call; a rate-limit error becomes `AIHandlerException("Rate limit exceeded.
Please try again later.")` chained from it, any other exception becomes
`AIHandlerException("Error processing request, Please try again later.")`
chained from it.  The second component is the chat-call trace: this
function makes exactly one call. -/
def process_backend_request (env : Env) (full_prompt : String) :
    Except AIHandlerException String × List (List String) :=
  let result : Except AIHandlerException String :=
    match env.chat [full_prompt] with
    | .ok message => .ok message
    | .error .anthropicRateLimit =>
        .error ⟨"Rate limit exceeded. Please try again later.",
                some .anthropicRateLimit⟩
    | .error .openaiRateLimit =>
        .error ⟨"Rate limit exceeded. Please try again later.",
                some .openaiRateLimit⟩
    | .error (.other desc) =>
        .error ⟨"Error processing request, Please try again later.",
                some (.other desc)⟩
  (result, [[full_prompt]])

/-- The chunks `_replace_handler` asks the splitter for:
`RecursiveCharacterTextSplitter(chunk_size=DEFAULT_MAX_TOKENS,
length_function=_splitter_length).split_text(text)`. -/
def replace_chunks (env : Env) (text : String) : List String :=
  env.split_text DEFAULT_MAX_TOKENS (splitter_length env) text

/-- The `for split in texts` loop of `_replace_handler`: per chunk, build
`full_prompt = "\n".join([prompt.prompt, split])`, make one backend call,
strip blank lines from the response and substitute the chunk's occurrences
in the accumulated text; an `AIHandlerException` aborts the loop and
propagates.  Also accumulates the chat-call trace. -/
def replace_loop (env : Env) (promptText : String) :
    List String → String → Except AIHandlerException String × List (List String)
  | [], text => (.ok text, [])
  | split :: rest, text =>
    let full_prompt := String.intercalate "\n" [promptText, split]
    match process_backend_request env full_prompt with
    | (.error e, calls) => (.error e, calls)
    | (.ok message, calls) =>
      let message := removeBlankLines message
      let r := replace_loop env promptText rest (pyReplace text split message)
      (r.1, calls ++ r.2)

/-- `_replace_handler`. -/
def replace_handler (env : Env) (prompt : Prompt) (text : String) :
    Except AIHandlerException String × List (List String) :=
  let texts := replace_chunks env text
  replace_loop env prompt.prompt texts text

/-- `_append_handler`: reject texts over the token limit, otherwise one
backend call on `"\n".join([prompt.prompt, text])` and return the
blank-line-stripped response. -/
def append_handler (env : Env) (prompt : Prompt) (text : String) :
    Except AIHandlerException String × List (List String) :=
  let tokens := splitter_length env text
  if tokens > DEFAULT_MAX_TOKENS then
    (.error ⟨"Cannot run completion on text this long", none⟩, [])
  else
    let full_prompt := String.intercalate "\n" [prompt.prompt, text]
    match process_backend_request env full_prompt with
    | (.error e, calls) => (.error e, calls)
    | (.ok message, calls) => (.ok (removeBlankLines message), calls)

/-- The `handlers` dict of `process`, keyed by the prompt method. -/
def handlers : Prompt.Method →
    Env → Prompt → String → Except AIHandlerException String × List (List String)
  | .REPLACE => replace_handler
  | .APPEND => append_handler

/-- An incoming POST request, as read by the view:
`request.POST.get("text")` and `request.POST.get("prompt")`
(`none` when the field is absent). -/
structure Request where
  text : Option String
  prompt_idx : Option String
deriving DecidableEq, Repr

/-- Decimal digits to a number, `none` on a non-digit or on no digits at
all. -/
def digitsToNat (acc : Nat) : List Char → Option Nat
  | [] => some acc
  | c :: rest =>
    if c.isDigit then digitsToNat (acc * 10 + (c.toNat - 48)) rest else none

/-- Python `int(s)` on a string: an optional sign followed by decimal
digits (the bases, underscores and surrounding whitespace Python also
accepts do not occur in this application's requests); `none` models the
`ValueError` raised otherwise. -/
def pyIntChars : List Char → Option Int
  | [] => none
  | '-' :: rest =>
    if rest.isEmpty then none
    else (digitsToNat 0 rest).map fun n => -(n : Int)
  | '+' :: rest =>
    if rest.isEmpty then none
    else (digitsToNat 0 rest).map fun n => (n : Int)
  | l => (digitsToNat 0 l).map fun n => (n : Int)

/-- Python `int(x)` for `x = request.POST.get("prompt")`: `none` models the
`TypeError`/`ValueError` raised when the field is missing or does not parse
as an integer (the view does not catch it). -/
def pyInt : Option String → Option Int
  | none => none
  | some s => pyIntChars s.data

/-- What the view produces: a `JsonResponse` with a body and a status, or
an exception escaping the view (an unhandled server error). -/
inductive ProcessResult where
  | response (body : List (String × String)) (status : Nat)
  | unhandledError
deriving DecidableEq, Repr

/-- The exact `"No text provided..."` message of the view (the Python
source spells it with a backslash line continuation, so the indentation of
the continued line is part of the string). -/
def noTextMsg : String :=
  "No text provided - please enter some text before using AI                     features"

/-- Modelled from the spec: the external Langchain
`RecursiveCharacterTextSplitter` "split[s] long text into token-bounded
chunks" — every chunk it returns is within the configured chunk size as
measured by the supplied length function. -/
def SplitterBounded (split : Nat → (String → Nat) → String → List String) : Prop :=
  ∀ chunkSize lengthFn text chunk,
    chunk ∈ split chunkSize lengthFn text → lengthFn chunk ≤ chunkSize

/-- A concrete environment for instantiating the theorems: every string
tokenizes to one token per character, the splitter returns the whole text
as one chunk, the backend always answers `"hi"`, and the store has a
REPLACE prompt at id 1 and an APPEND prompt at id 2. -/
def envHappy : Env where
  encode := fun _ s => s.data.map fun _ => 0
  split_text := fun _ _ s => [s]
  chat := fun _ => .ok "hi"
  get_prompt_by_id := fun i =>
    if i = 1 then some ⟨"Fix this", .REPLACE⟩
    else if i = 2 then some ⟨"Fix this", .APPEND⟩
    else none

/-- `envHappy` with an empty prompt store. -/
def envNoStore : Env := { envHappy with get_prompt_by_id := fun _ => none }

/-- `envHappy` whose backend always reports a rate limit. -/
def envRate : Env := { envHappy with chat := fun _ => .error .anthropicRateLimit }

/-- `envHappy` in which every string tokenizes to `DEFAULT_MAX_TOKENS + 1`
tokens. -/
def envLong : Env :=
  { envHappy with encode := fun _ _ => List.replicate (DEFAULT_MAX_TOKENS + 1) 0 }

/-- `envHappy` with a splitter that emits the text as a single chunk when
it fits the chunk size and no chunk otherwise (a concrete splitter
satisfying `SplitterBounded`). -/
def envBounded : Env :=
  { envHappy with
    split_text := fun chunkSize lengthFn text =>
      if lengthFn text ≤ chunkSize then [text] else [] }

/-- The `process` view: parse the prompt id and look it up, reject empty
text and unknown prompts with a 400, dispatch on the prompt method, map a
handler `AIHandlerException` to a 400 with its message, and wrap a handler
success in `{"message": ...}`.  The second component is the chat-call
trace of the whole request. -/
def process (env : Env) (request : Request) : ProcessResult × List (List String) :=
  match pyInt request.prompt_idx with
  | none => (.unhandledError, [])
  | some idx =>
    let prompt := env.get_prompt_by_id idx
    if request.text.getD "" = "" then
      (.response [("error", noTextMsg)] 400, [])
    else
      match prompt with
      | none => (.response [("error", "Invalid prompt provided")] 400, [])
      | some prompt =>
        let handler := handlers prompt.method
        match handler env prompt (request.text.getD "") with
        | (.error e, calls) => (.response [("error", e.message)] 400, calls)
        | (.ok response, calls) => (.response [("message", response)] 200, calls)

/-- C2: `_process_backend_request` returns the backend's chat message
unchanged when the call succeeds; a rate-limit error (anthropic or openai)
becomes `AIHandlerException` with message "Rate limit exceeded. Please try
again later." chained from the original error, and every other exception
becomes `AIHandlerException` with message "Error processing request,
Please try again later." chained from the original error — exactly two
generic user-facing messages. -/
theorem C2_backend_error_translation (env : Env) (full_prompt : String) :
    (∀ m, env.chat [full_prompt] = .ok m →
      process_backend_request env full_prompt = (.ok m, [[full_prompt]])) ∧
    (env.chat [full_prompt] = .error .anthropicRateLimit →
      process_backend_request env full_prompt =
        (.error ⟨"Rate limit exceeded. Please try again later.",
                 some .anthropicRateLimit⟩, [[full_prompt]])) ∧
    (env.chat [full_prompt] = .error .openaiRateLimit →
      process_backend_request env full_prompt =
        (.error ⟨"Rate limit exceeded. Please try again later.",
                 some .openaiRateLimit⟩, [[full_prompt]])) ∧
    (∀ desc, env.chat [full_prompt] = .error (.other desc) →
      process_backend_request env full_prompt =
        (.error ⟨"Error processing request, Please try again later.",
                 some (.other desc)⟩, [[full_prompt]])) := by
  refine ⟨?_, ?_, ?_, ?_⟩
  · intro m hm
    simp [process_backend_request, hm]
  · intro hm
    simp [process_backend_request, hm]
  · intro hm
    simp [process_backend_request, hm]
  · intro desc hm
    simp [process_backend_request, hm]

/-- Witness for C2 at a concrete environment: a successful chat call and a
rate-limited one. -/
theorem C2_backend_error_translation_witness :
    process_backend_request envHappy "p" = (.ok "hi", [["p"]]) ∧
    process_backend_request envRate "p" =
      (.error ⟨"Rate limit exceeded. Please try again later.",
               some .anthropicRateLimit⟩, [["p"]]) :=
  ⟨(C2_backend_error_translation envHappy "p").1 "hi" rfl,
   (C2_backend_error_translation envRate "p").2.1 rfl⟩

/-- C4: within the token limit and with a successful backend call,
`_append_handler` returns exactly the backend's response with blank lines
removed — new content only; in particular two calls on different original
texts that draw the same backend response return the same value, so the
original text is neither returned nor modified. -/
theorem C4_append_returns_new_content (env : Env) (prompt : Prompt) (text m : String)
    (htok : ¬ splitter_length env text > DEFAULT_MAX_TOKENS)
    (hchat : env.chat [String.intercalate "\n" [prompt.prompt, text]] = .ok m) :
    append_handler env prompt text =
      (.ok (removeBlankLines m),
       [[String.intercalate "\n" [prompt.prompt, text]]]) ∧
    (∀ text2, ¬ splitter_length env text2 > DEFAULT_MAX_TOKENS →
      env.chat [String.intercalate "\n" [prompt.prompt, text2]] = .ok m →
      (append_handler env prompt text2).1 = (append_handler env prompt text).1) := by
  have h1 : append_handler env prompt text =
      (.ok (removeBlankLines m),
       [[String.intercalate "\n" [prompt.prompt, text]]]) := by
    simp [append_handler, htok, process_backend_request, hchat]
  refine ⟨h1, ?_⟩
  intro text2 htok2 hchat2
  have h2 : append_handler env prompt text2 =
      (.ok (removeBlankLines m),
       [[String.intercalate "\n" [prompt.prompt, text2]]]) := by
    simp [append_handler, htok2, process_backend_request, hchat2]
  rw [h1, h2]

/-- Witness for C4 at a concrete environment. -/
theorem C4_append_returns_new_content_witness :
    append_handler envHappy ⟨"Fix this", .APPEND⟩ "t" =
      (.ok "hi", [["Fix this\nt"]]) := by
  have h := (C4_append_returns_new_content envHappy ⟨"Fix this", .APPEND⟩ "t" "hi"
    (by decide) rfl).1
  simpa using h

/-- C5: the chunks used by the REPLACE path are produced by the splitter
configured with `chunk_size = DEFAULT_MAX_TOKENS = 4096` and the tiktoken
token count for model `"gpt-3.5-turbo"` as its length function, and (by
the splitter's token-bound guarantee) every chunk's token count is at most
4096. -/
theorem C5_chunks_token_bounded (env : Env) (text : String)
    (hs : SplitterBounded env.split_text) :
    replace_chunks env text =
      env.split_text 4096 (fun s => (env.encode "gpt-3.5-turbo" s).length) text ∧
    ∀ chunk, chunk ∈ replace_chunks env text →
      (env.encode "gpt-3.5-turbo" chunk).length ≤ 4096 := by
  constructor
  · rfl
  · intro chunk hc
    exact hs DEFAULT_MAX_TOKENS (splitter_length env) text chunk hc

/-- Witness for C5: a concrete splitter satisfying the token-bound
guarantee, applied to a concrete text. -/
theorem C5_chunks_token_bounded_witness :
    (envBounded.encode "gpt-3.5-turbo" "abc").length ≤ 4096 := by
  have hs : SplitterBounded envBounded.split_text := by
    intro chunkSize lengthFn text chunk hc
    simp only [envBounded, envHappy] at hc
    by_cases h : lengthFn text ≤ chunkSize
    · simp [h] at hc
      subst hc
      exact h
    · simp [h] at hc
  exact (C5_chunks_token_bounded envBounded "abc" hs).2 "abc" (by decide)

/-- C8: a text over the token limit makes `_append_handler` raise
`AIHandlerException "Cannot run completion on text this long"` with no
backend call, and `process` turns that exception into a status-400 JSON
error response carrying the exception's message. -/
theorem C8_append_token_limit (env : Env) (request : Request) (idx : Int)
    (prompt : Prompt) (t : String)
    (htok : splitter_length env t > DEFAULT_MAX_TOKENS) :
    append_handler env prompt t =
      (.error ⟨"Cannot run completion on text this long", none⟩, []) ∧
    (pyInt request.prompt_idx = some idx →
      env.get_prompt_by_id idx = some prompt →
      prompt.method = .APPEND →
      request.text = some t → t ≠ "" →
      process env request =
        (.response [("error", "Cannot run completion on text this long")] 400, [])) := by
  have h1 : append_handler env prompt t =
      (.error ⟨"Cannot run completion on text this long", none⟩, []) := by
    simp [append_handler, htok]
  refine ⟨h1, ?_⟩
  intro hidx hp hm ht hne
  simp only [process, hidx, ht, Option.getD_some]
  rw [if_neg hne, hp]
  simp only [hm, handlers, h1]

/-- Witness for C8 at a concrete environment where every text counts as
4097 tokens. -/
theorem C8_append_token_limit_witness :
    process envLong ⟨some "t", some "2"⟩ =
      (.response [("error", "Cannot run completion on text this long")] 400, []) := by
  refine (C8_append_token_limit envLong ⟨some "t", some "2"⟩ 2 ⟨"Fix this", .APPEND⟩ "t"
    ?_).2 (by decide) rfl rfl rfl (by decide)
  show DEFAULT_MAX_TOKENS < (envLong.encode DEFAULT_MODEL "t").length
  simp [envLong, envHappy]

/-- C10: the prompt id is parsed (and looked up) before the text is
validated — an unparsable prompt id is an unhandled exception even when
the text is missing; with a parsed prompt id, missing or empty text gives
a 400 "No text provided" response and an unresolvable prompt id gives a
400 "Invalid prompt provided" response, in both cases with no backend
call. -/
theorem C10_validation_order (env : Env) (request : Request) :
    (pyInt request.prompt_idx = none →
      process env request = (.unhandledError, [])) ∧
    (∀ idx, pyInt request.prompt_idx = some idx →
      (request.text = none ∨ request.text = some "") →
      process env request = (.response [("error", noTextMsg)] 400, [])) ∧
    (∀ idx t, pyInt request.prompt_idx = some idx →
      env.get_prompt_by_id idx = none →
      request.text = some t → t ≠ "" →
      process env request =
        (.response [("error", "Invalid prompt provided")] 400, [])) := by
  refine ⟨?_, ?_, ?_⟩
  · intro h
    simp [process, h]
  · intro idx h ht
    rcases ht with ht | ht <;> simp [process, h, ht]
  · intro idx t h hp ht hne
    simp [process, h, ht, hne, hp]

/-- Witness for C10: missing text with a well-formed prompt id. -/
theorem C10_validation_order_witness :
    process envHappy ⟨none, some "1"⟩ =
      (.response [("error", noTextMsg)] 400, []) :=
  (C10_validation_order envHappy ⟨none, some "1"⟩).2.1 1 (by decide) (Or.inl rfl)

/-- C3: with nonempty text and a resolvable prompt id, `process` picks the
handler by the prompt's method alone — REPLACE dispatches to
`_replace_handler` and APPEND to `_append_handler` — and on handler
success answers with a JSON body whose "message" field is exactly the
handler's return value. -/
theorem C3_method_dispatch (env : Env) (request : Request) (idx : Int)
    (prompt : Prompt) (t res : String) (calls : List (List String))
    (hidx : pyInt request.prompt_idx = some idx)
    (hp : env.get_prompt_by_id idx = some prompt)
    (ht : request.text = some t) (hne : t ≠ "")
    (hh : handlers prompt.method env prompt t = (.ok res, calls)) :
    process env request = (.response [("message", res)] 200, calls) ∧
    handlers .REPLACE = replace_handler ∧
    handlers .APPEND = append_handler := by
  refine ⟨?_, rfl, rfl⟩
  simp [process, hidx, ht, hne, hp, hh]

/-- Witness for C3: a REPLACE prompt on a one-chunk text. -/
theorem C3_method_dispatch_witness :
    process envHappy ⟨some "t", some "1"⟩ =
      (.response [("message", "hi")] 200, [["Fix this\nt"]]) := by
  refine (C3_method_dispatch envHappy ⟨some "t", some "1"⟩ 1 ⟨"Fix this", .REPLACE⟩
    "t" "hi" [["Fix this\nt"]] (by decide) rfl rfl (by decide) ?_).1
  decide

/-- The replace loop consults the environment only through `chat`. -/
theorem replace_loop_chat_congr (e1 e2 : Env) (h : e1.chat = e2.chat)
    (P : String) : ∀ (l : List String) (text : String),
    replace_loop e1 P l text = replace_loop e2 P l text := by
  intro l
  induction l with
  | nil => intro text; rfl
  | cons c rest ih =>
    intro text
    simp only [replace_loop, process_backend_request, h]
    cases e2.chat [String.intercalate "\n" [P, c]] with
    | ok m => simp [ih]
    | error e => cases e <;> rfl

/-- C7: the dispatch table, chunking routine and call wrapper keep no
state between requests: the outcome of `process` is a function of the
request's two fields alone (given the environment), and the handlers read
nothing from the prompt store — two environments agreeing on the backend,
splitter and tokenizer give identical handler results whatever their
prompt stores. -/
theorem C7_stateless :
    (∀ env (r1 r2 : Request), r1.text = r2.text →
      r1.prompt_idx = r2.prompt_idx → process env r1 = process env r2) ∧
    (∀ e1 e2 : Env, e1.chat = e2.chat → e1.split_text = e2.split_text →
      e1.encode = e2.encode → ∀ prompt t,
      replace_handler e1 prompt t = replace_handler e2 prompt t ∧
      append_handler e1 prompt t = append_handler e2 prompt t) := by
  constructor
  · intro env r1 r2 h1 h2
    cases r1
    cases r2
    simp_all
  · intro e1 e2 hc hs he prompt t
    have hlen : splitter_length e1 = splitter_length e2 := by
      funext s
      simp [splitter_length, he]
    constructor
    · simp only [replace_handler, replace_chunks, hs, hlen]
      exact replace_loop_chat_congr e1 e2 hc _ _ _
    · simp only [append_handler, hlen, process_backend_request, hc]

/-- Witness for C7: the prompt store is irrelevant to the replace handler. -/
theorem C7_stateless_witness :
    replace_handler envHappy ⟨"Fix this", .REPLACE⟩ "t" =
      replace_handler envNoStore ⟨"Fix this", .REPLACE⟩ "t" :=
  (C7_stateless.2 envHappy envNoStore rfl rfl rfl ⟨"Fix this", .REPLACE⟩ "t").1

/-- The success path of the replace loop: when every chunk's backend call
succeeds, the loop makes one chat call per chunk in order and folds the
blank-line-stripped responses into the accumulated text. -/
theorem replace_loop_ok (env : Env) (P : String) (resp : String → String) :
    ∀ l : List String,
    (∀ c ∈ l, env.chat [String.intercalate "\n" [P, c]] = .ok (resp c)) →
    ∀ text, replace_loop env P l text =
      (.ok (l.foldl (fun acc c => pyReplace acc c (removeBlankLines (resp c))) text),
       l.map fun c => [String.intercalate "\n" [P, c]]) := by
  intro l
  induction l with
  | nil =>
    intro _ text
    simp [replace_loop]
  | cons c rest ih =>
    intro hchat text
    have hc := hchat c (List.mem_cons_self c rest)
    simp only [replace_loop, process_backend_request, hc]
    rw [ih (fun d hd => hchat d (List.mem_cons_of_mem c hd))]
    simp

/-- C1: for a REPLACE prompt, `_replace_handler` splits the text into
chunks and, chunk by chunk in order, makes exactly one backend chat call
on the prompt joined with that chunk, substituting the chunk's occurrence
in the accumulated text with the blank-line-stripped response; the result
is the original text with every chunk so replaced. -/
theorem C1_replace_stitches_chunks (env : Env) (prompt : Prompt)
    (text : String) (resp : String → String)
    (hchat : ∀ c ∈ replace_chunks env text,
      env.chat [String.intercalate "\n" [prompt.prompt, c]] = .ok (resp c)) :
    replace_handler env prompt text =
      (.ok ((replace_chunks env text).foldl
          (fun acc c => pyReplace acc c (removeBlankLines (resp c))) text),
       (replace_chunks env text).map
          fun c => [String.intercalate "\n" [prompt.prompt, c]]) := by
  unfold replace_handler
  exact replace_loop_ok env prompt.prompt resp (replace_chunks env text) hchat text

/-- Witness for C1: one chunk, one call, one substitution. -/
theorem C1_replace_stitches_chunks_witness :
    replace_handler envHappy ⟨"Fix this", .REPLACE⟩ "t" =
      (.ok "hi", [["Fix this\nt"]]) := by
  rw [C1_replace_stitches_chunks envHappy ⟨"Fix this", .REPLACE⟩ "t"
    (fun _ => "hi") (by decide)]
  decide

/-- Every chat call recorded by the replace loop is the prompt joined with
one of the loop's chunks (whether or not the call succeeded). -/
theorem replace_loop_calls (env : Env) (P : String) :
    ∀ (l : List String) (text : String) (msgs : List String),
      msgs ∈ (replace_loop env P l text).2 →
      ∃ c ∈ l, msgs = [String.intercalate "\n" [P, c]] := by
  intro l
  induction l with
  | nil =>
    intro text msgs h
    simp [replace_loop] at h
  | cons c rest ih =>
    intro text msgs h
    simp only [replace_loop, process_backend_request] at h
    cases hc : env.chat [String.intercalate "\n" [P, c]] with
    | ok m =>
      rw [hc] at h
      simp at h
      rcases h with h | h
      · exact ⟨c, List.mem_cons_self c rest, h⟩
      · obtain ⟨d, hd, hmsgs⟩ := ih _ _ h
        exact ⟨d, List.mem_cons_of_mem c hd, hmsgs⟩
    | error e =>
      rw [hc] at h
      cases e <;> simp at h <;> exact ⟨c, List.mem_cons_self c rest, h⟩

/-- C6: in both handlers every message sent to the backend is the prompt's
template text joined with the user text (or current chunk) by a single
newline. -/
theorem C6_full_prompt_shape (env : Env) (prompt : Prompt) (text : String) :
    (∀ msgs ∈ (replace_handler env prompt text).2,
      ∃ c ∈ replace_chunks env text, msgs = [prompt.prompt ++ "\n" ++ c]) ∧
    (¬ splitter_length env text > DEFAULT_MAX_TOKENS →
      (append_handler env prompt text).2 = [[prompt.prompt ++ "\n" ++ text]]) := by
  have hint : ∀ a b : String, String.intercalate "\n" [a, b] = a ++ "\n" ++ b := by
    intro a b
    rfl
  constructor
  · intro msgs h
    obtain ⟨c, hc, hm⟩ := replace_loop_calls env prompt.prompt _ _ msgs h
    exact ⟨c, hc, by rw [hm, hint]⟩
  · intro htok
    simp only [append_handler, htok, if_false, process_backend_request, hint]
    rcases env.chat [prompt.prompt ++ "\n" ++ text] with e | m
    · cases e <;> rfl
    · rfl

/-- Witness for C6: the append handler's single call on a concrete
environment. -/
theorem C6_full_prompt_shape_witness :
    (append_handler envHappy ⟨"Fix this", .APPEND⟩ "t").2 =
      [["Fix this" ++ "\n" ++ "t"]] :=
  (C6_full_prompt_shape envHappy ⟨"Fix this", .APPEND⟩ "t").2 (by decide)

theorem normCRLF_of_no_cr (l : List Char) (h : ∀ c ∈ l, c ≠ '\r') :
    normCRLF l = l := by
  induction l using normCRLF.induct with
  | case1 => rfl
  | case2 rest ih => exact absurd rfl (h _ (by simp))
  | case3 c rest hne ih =>
    rw [normCRLF]
    · rw [ih (fun d hd => h d (List.mem_cons_of_mem c hd))]
    · exact hne

theorem splitAtBreaks_pieces : ∀ (l cur : List Char),
    (∀ c ∈ cur, ¬(c = '\n' ∨ c = '\r')) →
    ∀ p ∈ splitAtBreaks cur l, ∀ c ∈ p, ¬(c = '\n' ∨ c = '\r') := by
  intro l
  induction l with
  | nil =>
    intro cur hcur p hp c hc
    simp only [splitAtBreaks, List.mem_singleton] at hp
    subst hp
    exact hcur c (List.mem_reverse.mp hc)
  | cons a rest ih =>
    intro cur hcur p hp c hc
    by_cases hb : a = '\n' ∨ a = '\r'
    · have hbb : (a = '\n' || a = '\r') = true := by
        rcases hb with hb | hb <;> simp [hb]
      rw [splitAtBreaks, if_pos hbb] at hp
      rcases List.mem_cons.mp hp with hp | hp
      · subst hp
        exact hcur c (List.mem_reverse.mp hc)
      · exact ih [] (by simp) p hp c hc
    · have hbb : ¬ (a = '\n' || a = '\r') = true := by
        simp only [Bool.or_eq_true, decide_eq_true_eq]
        exact hb
      rw [splitAtBreaks, if_neg hbb] at hp
      refine ih (a :: cur) ?_ p hp c hc
      intro d hd
      rcases List.mem_cons.mp hd with hd | hd
      · subst hd; exact hb
      · exact hcur d hd

theorem splitAtBreaks_no_break : ∀ (p cur : List Char),
    (∀ c ∈ p, ¬(c = '\n' ∨ c = '\r')) →
    splitAtBreaks cur p = [cur.reverse ++ p] := by
  intro p
  induction p with
  | nil => intro cur _; simp [splitAtBreaks]
  | cons a p' ih =>
    intro cur hp
    have ha := hp a (List.mem_cons_self a p')
    have hbb : ¬ (a = '\n' || a = '\r') = true := by
      simp only [Bool.or_eq_true, decide_eq_true_eq]
      exact ha
    rw [splitAtBreaks, if_neg hbb, ih (a :: cur) (fun d hd => hp d (List.mem_cons_of_mem a hd))]
    simp

theorem splitAtBreaks_append : ∀ (p : List Char),
    (∀ c ∈ p, ¬(c = '\n' ∨ c = '\r')) →
    ∀ (cur t : List Char),
    splitAtBreaks cur (p ++ '\n' :: t) = (cur.reverse ++ p) :: splitAtBreaks [] t := by
  intro p
  induction p with
  | nil =>
    intro _ cur t
    simp [splitAtBreaks]
  | cons a p' ih =>
    intro hp cur t
    have ha := hp a (List.mem_cons_self a p')
    have hbb : ¬ (a = '\n' || a = '\r') = true := by
      simp only [Bool.or_eq_true, decide_eq_true_eq]
      exact ha
    rw [List.cons_append, splitAtBreaks, if_neg hbb,
      ih (fun d hd => hp d (List.mem_cons_of_mem a hd)) (a :: cur) t]
    simp

theorem joinNL_resplit : ∀ (ls : List (List Char)), ls ≠ [] →
    (∀ p ∈ ls, p ≠ [] ∧ ∀ c ∈ p, ¬(c = '\n' ∨ c = '\r')) →
    splitAtBreaks [] (joinNL ls) = ls := by
  intro ls
  induction ls with
  | nil => intro h; exact absurd rfl h
  | cons p ls' ih =>
    intro _ hmem
    cases ls' with
    | nil =>
      rw [joinNL, splitAtBreaks_no_break p [] (hmem p (List.mem_cons_self p [])).2]
      rfl
    | cons q ls'' =>
      rw [joinNL]
      · rw [splitAtBreaks_append p (hmem p (List.mem_cons_self p _)).2 [] _,
          ih (by simp) (fun r hr => hmem r (List.mem_cons_of_mem p hr))]
        rfl
      · simp

theorem joinNL_no_cr : ∀ (ls : List (List Char)),
    (∀ p ∈ ls, ∀ c ∈ p, ¬(c = '\n' ∨ c = '\r')) →
    ∀ c ∈ joinNL ls, c ≠ '\r' := by
  intro ls
  induction ls with
  | nil => intro _ c hc; simp [joinNL] at hc
  | cons p ls' ih =>
    intro hmem c hc
    cases ls' with
    | nil =>
      rw [joinNL] at hc
      intro h
      exact hmem p (List.mem_cons_self p []) c hc (Or.inr h)
    | cons q ls'' =>
      rw [joinNL] at hc
      case x_1 => simp
      rcases List.mem_append.mp hc with hc | hc
      · intro h
        exact hmem p (List.mem_cons_self p _) c hc (Or.inr h)
      · rcases List.mem_cons.mp hc with hc | hc
        · subst hc; decide
        · exact ih (fun r hr => hmem r (List.mem_cons_of_mem p hr)) c hc

theorem mem_splitlinesChars_mem_pieces (l : List Char) (p : List Char)
    (hp : p ∈ splitlinesChars l) : p ∈ splitAtBreaks [] (normCRLF l) := by
  unfold splitlinesChars at hp
  by_cases h : (splitAtBreaks [] (normCRLF l)).getLast? = some []
  · rw [if_pos h] at hp
    rw [List.dropLast_eq_take] at hp
    exact List.take_subset _ _ hp
  · rwa [if_neg h] at hp

theorem removeBlankLines_no_empty_line (s : String) :
    ∀ line ∈ pySplitlines (removeBlankLines s), line ≠ "" := by
  intro line hline
  unfold removeBlankLines at hline
  set F := (splitlinesChars s.data).filter (fun p => !p.isEmpty) with hF
  have hFmem : ∀ p ∈ F, p ≠ [] ∧ ∀ c ∈ p, ¬(c = '\n' ∨ c = '\r') := by
    intro p hp
    have := List.mem_filter.mp hp
    refine ⟨by simpa using this.2, ?_⟩
    exact splitAtBreaks_pieces (normCRLF s.data) [] (by simp) p
      (mem_splitlinesChars_mem_pieces s.data p this.1)
  cases hFe : F with
  | nil =>
    rw [hFe] at hline
    simp [pySplitlines, splitlinesChars, joinNL, splitAtBreaks, normCRLF] at hline
  | cons p0 F' =>
    have hne : F ≠ [] := by rw [hFe]; exact List.cons_ne_nil _ _
    have hsplit : splitAtBreaks [] (normCRLF (joinNL F)) = F := by
      rw [normCRLF_of_no_cr _ (joinNL_no_cr F (fun p hp => (hFmem p hp).2)),
        joinNL_resplit F hne hFmem]
    have hlastF : ¬ F.getLast? = some [] := by
      intro hcon
      obtain ⟨hne2, heq⟩ := List.mem_getLast?_eq_getLast (Option.mem_def.mpr hcon)
      have hmem2 : F.getLast hne2 ∈ F := List.getLast_mem hne2
      rw [← heq] at hmem2
      exact (hFmem [] hmem2).1 rfl
    have hsc : splitlinesChars (joinNL F) = F := by
      simp only [splitlinesChars]
      rw [hsplit, if_neg hlastF]
    unfold pySplitlines at hline
    have hdata : (String.mk (joinNL F)).data = joinNL F := rfl
    rw [hdata, hsc] at hline
    obtain ⟨p, hpF, hpe⟩ := List.mem_map.mp hline
    intro hcon
    apply (hFmem p hpF).1
    rw [← hpe] at hcon
    exact congrArg String.data hcon

/-- C9: every backend response a handler incorporates has its blank lines
removed — split into lines, empty lines dropped, the rest rejoined with
the line separator — so a blank-line-stripped string, and in particular
any message returned by `_append_handler` and any replacement substituted
by `_replace_handler` (which are such strings), contains no empty line. -/
theorem C9_no_blank_lines (env : Env) (prompt : Prompt) (text : String) :
    (∀ m, ∀ line ∈ pySplitlines (removeBlankLines m), line ≠ "") ∧
    (∀ res, (append_handler env prompt text).1 = .ok res →
      ∀ line ∈ pySplitlines res, line ≠ "") ∧
    (∀ resp : String → String,
      (∀ c ∈ replace_chunks env text,
        env.chat [String.intercalate "\n" [prompt.prompt, c]] = .ok (resp c)) →
      ∀ c ∈ replace_chunks env text,
        ∀ line ∈ pySplitlines (removeBlankLines (resp c)), line ≠ "") := by
  refine ⟨fun m => removeBlankLines_no_empty_line m, ?_, ?_⟩
  · intro res hres
    unfold append_handler at hres
    by_cases htok : splitter_length env text > DEFAULT_MAX_TOKENS
    · rw [if_pos htok] at hres
      exact absurd hres (by simp)
    · rw [if_neg htok] at hres
      simp only [process_backend_request] at hres
      rcases hchat : env.chat [String.intercalate "\n" [prompt.prompt, text]]
        with e | m
      · rw [hchat] at hres
        cases e <;> simp at hres
      · rw [hchat] at hres
        simp only [Except.ok.injEq] at hres
        rw [← hres]
        exact removeBlankLines_no_empty_line _
  · intro resp _ c _
    exact removeBlankLines_no_empty_line (resp c)

/-- Witness for C9: a stripped concrete string, and a concrete append
result, have no empty lines. -/
theorem C9_no_blank_lines_witness :
    "" ∉ pySplitlines (removeBlankLines "a\n\nb\n") ∧
    "" ∉ pySplitlines "hi" := by
  constructor
  · intro hmem
    exact (C9_no_blank_lines envHappy ⟨"Fix this", .APPEND⟩ "t").1
      "a\n\nb\n" "" hmem rfl
  · intro hmem
    exact (C9_no_blank_lines envHappy ⟨"Fix this", .APPEND⟩ "t").2.1
      "hi" (by decide) "" hmem rfl
